import Mathlib

/-!
Shallow embedding of the marston front end (parser + tree indexer +
diagnostics bag + rule-based validator) and proofs about the claims of
its specification.

Modelling conventions:
  * `Spur` (lasso interned symbol) is modelled by the identifier text
    itself (`String`); interning is injective on live handles, so equal
    text is equal handle and `resolve` is the identity.
  * Rust `usize` is `Nat`; `Range<usize>` spans are a `start`/`stop`
    pair of `Nat`.
  * `f64` payloads are carried opaquely as `Int`; no claim inspects
    float arithmetic.
  * Rust panics (index out of bounds, `Option::expect`) are modelled
    with `Except`/`Option` results; `none`/`.error` means the Rust code
    panics.
  * `FxHashMap` / `HashMap` values are modelled as association lists;
    `insert` replaces the existing binding in place.  Claims only rely
    on key-to-value content, never on hash iteration order.
  * The src snapshot contains two generations of the AST: the parser
    file builds blocks whose attributes are a `FxHashMap<Spur, Value>`
    over span-less enum values, while `ast/mod.rs` declares span
    carrying `Value`s and a `Vec<Attribute>`.  Both are embedded, the
    parser generation under `P`-prefixed names.
-/

namespace Marston

/-- Byte offset range into one source text (`Span = Range<usize>`). -/
structure Span where
  start : Nat
  stop : Nat
deriving DecidableEq, Repr

/-- Rust `Range::default()`: the zero-width `0..0` span. -/
def Span.default : Span := ⟨0, 0⟩

/-- Modelled from the spec: `span.rs` is absent from the snapshot (only
`SpanUtils` uses remain).  A block's span "covers from its leading `.`
through the last consumed token", so `a.to b` spans from the start of
`a` to the end of `b`. -/
def Span.to (a b : Span) : Span := ⟨a.start, b.stop⟩

/-- Modelled from the spec: zero-width span at the end of `a`, used as
the error position for a missing comma after an attribute. -/
def Span.toEnd (a : Span) : Span := ⟨a.stop, a.stop⟩

/-- Severity of a report (`ariadne::ReportKind`). -/
inductive ReportKind where
  | error
  | warning
deriving DecidableEq, Repr

/-- Label colors used by the report macros. -/
inductive Color where
  | brightRed
  | brightYellow
  | yellow
  | red
deriving DecidableEq, Repr

/-- One labelled span annotation of a report. -/
structure RLabel where
  span : Span
  message : String
  color : Color
deriving DecidableEq, Repr

/-- A diagnostic report: severity, primary message and span, labelled
spans, free-text notes (`MReport`). -/
structure Report where
  kind : ReportKind
  message : String
  span : Span
  labels : List RLabel
  notes : List String
deriving DecidableEq, Repr

/-- The diagnostics bag state (`ReportsBag` in `reports.rs`): the
accumulated reports, the file identity, the source text and the sticky
error flag. -/
structure ReportsBag where
  reports : List Report
  file : String
  source_content : String
  has_errors : Bool
deriving DecidableEq, Repr

/-- Fresh bag for a file (`ReportsBag::new`). -/
def ReportsBag.new (file_name : String) (source_content : String) : ReportsBag :=
  ⟨[], file_name, source_content, false⟩

/-- Per-file reset (`ReportsBag::init` overwrites the global bag with a
fresh one). -/
def ReportsBag.init (file_name : String) (source_content : String) : ReportsBag :=
  ReportsBag.new file_name source_content

/-- Append a report (`ReportsBag::add`). -/
def ReportsBag.add (b : ReportsBag) (r : Report) : ReportsBag :=
  { b with reports := b.reports ++ [r] }

/-- Render all reports (`ReportsBag::print`): rendering writes to
stderr and leaves the bag state unchanged. -/
def ReportsBag.print (b : ReportsBag) : ReportsBag := b

/-- Whether any report has been accumulated (`ReportsBag::has_reports`). -/
def ReportsBag.has_reports (b : ReportsBag) : Bool := !b.reports.isEmpty

/-- Set the sticky error flag (`ReportsBag::mark_errors`). -/
def ReportsBag.mark_errors (b : ReportsBag) : ReportsBag :=
  { b with has_errors := true }

/-- Empty the report list, everything else untouched
(`ReportsBag::clear_errors` is `reports.clear()`). -/
def ReportsBag.clear_errors (b : ReportsBag) : ReportsBag :=
  { b with reports := [] }

/-- The bag operations available during one file's compilation (between
two `init` calls). -/
inductive BagOp where
  | add (r : Report)
  | print
  | mark_errors
  | clear_errors
deriving Repr

/-- Interpret one bag operation. -/
def applyBagOp (b : ReportsBag) : BagOp → ReportsBag
  | .add r => b.add r
  | .print => b.print
  | .mark_errors => b.mark_errors
  | .clear_errors => b.clear_errors

/-- Interpret a sequence of bag operations in order. -/
def applyBagOps (b : ReportsBag) (ops : List BagOp) : ReportsBag :=
  ops.foldl applyBagOp b

/-! AST data model of `ast/mod.rs`. -/

/-- An interned identifier together with its span (`Interned`).  The
`Spur` key is modelled by the identifier text. -/
structure Interned where
  span : Span
  key : String
deriving DecidableEq, Repr

/-- Opaque carrier for Rust `f64` payloads. -/
abbrev F64 := Int

mutual

/-- Tagged value union (`ValueKind`): String, Number, Boolean or a
heterogeneous ordered array. -/
inductive ValueKind where
  | string (s : String)
  | number (n : F64)
  | boolean (b : Bool)
  | array (vs : List Value)

/-- A value together with its span (`Value` in `ast/mod.rs`). -/
inductive Value where
  | mk (kind : ValueKind) (span : Span)

end

/-- Projection: the tagged union of a value. -/
def Value.kind : Value → ValueKind
  | .mk k _ => k

/-- Projection: the span of a value. -/
def Value.span : Value → Span
  | .mk _ sp => sp

/-- Rust `ValueKind::as_string`. -/
def ValueKind.as_string : ValueKind → Option String
  | .string s => some s
  | _ => none

/-- Rust `ValueKind::as_number`. -/
def ValueKind.as_number : ValueKind → Option F64
  | .number n => some n
  | _ => none

/-- Rust `ValueKind::as_boolean`. -/
def ValueKind.as_boolean : ValueKind → Option Bool
  | .boolean b => some b
  | _ => none

/-- Rust `ValueKind::as_array`. -/
def ValueKind.as_array : ValueKind → Option (List Value)
  | .array vs => some vs
  | _ => none

/-- Rust `ValueKind::is_same_kind`: compares only the tags. -/
def ValueKind.is_same_kind : ValueKind → ValueKind → Bool
  | .string _, .string _ => true
  | .number _, .number _ => true
  | .boolean _, .boolean _ => true
  | .array _, .array _ => true
  | _, _ => false

/-- A `(key, value)` attribute pair (`Attribute`). -/
structure Attribute where
  key : Interned
  value : Value

/-- Creates a new `Value` with boolean true (`Value::new_default`);
declared in `ast/mod.rs` and never called by the parser. -/
def Value.new_default (span : Span) : Value :=
  .mk (.boolean true) span

mutual

/-- A block of the tree (`Block`): id, optional name, attribute
sequence, children, span. -/
inductive Block where
  | mk (id : Nat) (name : Option Interned) (attributes : List Attribute)
      (children : List Node) (span : Span)

/-- A block child (`Node`): nested block or text. -/
inductive Node where
  | block (b : Block)
  | text (s : String)

end

/-- Projection: block id. -/
def Block.id : Block → Nat
  | .mk i _ _ _ _ => i

/-- Projection: optional block name. -/
def Block.name : Block → Option Interned
  | .mk _ n _ _ _ => n

/-- Projection: block attributes. -/
def Block.attributes : Block → List Attribute
  | .mk _ _ a _ _ => a

/-- Projection: block children. -/
def Block.children : Block → List Node
  | .mk _ _ _ c _ => c

/-- Projection: block span. -/
def Block.span : Block → Span
  | .mk _ _ _ _ sp => sp

/-- Rust `Block::get_attribute`: first attribute whose interned key
equals the given name. -/
def Block.get_attribute (b : Block) (key : String) : Option Attribute :=
  b.attributes.find? (fun attr => attr.key.key == key)

/-- Rust `Block::find_all_child_blocks`: the direct children of `b`
that are blocks named `name`, in order. -/
def Block.find_all_child_blocks (b : Block) (name : String) : List Block :=
  b.children.filterMap (fun child =>
    match child with
    | .block c =>
      match c.name with
      | some child_name => if child_name.key == name then some c else none
      | none => none
    | .text _ => none)

/-- The document: ordered list of top-level blocks (`MarstonDocument`). -/
structure MarstonDocument where
  blocks : List Block

/-- Rust `MarstonDocument::find_block_by_name`: first top-level block
with the given name. -/
def MarstonDocument.find_block_by_name (d : MarstonDocument) (name : String) : Option Block :=
  d.blocks.find? (fun e => e.name.map Interned.key == some name)

/-- The refinement step of `find_in_parent` (its inner `for` loops):
replace the candidate set by the direct children of the candidates
that are blocks named `name`, in order. -/
def findInParentStep (current_blocks : List Block) (name : String) : List Block :=
  current_blocks.flatMap (fun block =>
    block.children.filterMap (fun child =>
      match child with
      | .block child_block =>
        match child_block.name with
        | some interned => if interned.key == name then some child_block else none
        | none => none
      | .text _ => none))

/-- Rust `MarstonDocument::find_in_parent`: root-anchored ancestor-path
resolution.  The first name selects the top-level blocks with that
name; each subsequent name replaces the candidate set by the named
direct children (blocks only) of the previous candidates. -/
def MarstonDocument.find_in_parent (d : MarstonDocument) (names : List String) : List Block :=
  match names with
  | [] => []
  | first_name :: rest =>
    let current_blocks := d.blocks.filter (fun block =>
      match block.name with
      | some interned => interned.key == first_name
      | none => false)
    rest.foldl findInParentStep current_blocks

/-! Tree indexer of `info.rs`. -/

/-- Index record for one block (`BlockInfo`): id, name, span, depth,
parent id, direct children ids. -/
structure BlockInfo where
  id : Nat
  name : Interned
  span : Span
  depth : Nat
  parent : Option Nat
  children : List Nat
deriving DecidableEq, Repr

/-- The indexer state (`Info`): the flat block table, the name-to-ids
multimap (an association list models the `HashMap`), the id counter and
the walk cursor (current parent and depth). -/
structure Info where
  blocks : List BlockInfo
  name_index : List (String × List Nat)
  id_counter : Nat
  current_parent : Option Nat
  current_depth : Nat
deriving Repr

/-- Rust `Info::new`. -/
def Info.new : Info :=
  { blocks := [], name_index := [], id_counter := 0,
    current_parent := none, current_depth := 0 }

/-- Rust `Info::has_block`: name-index membership. -/
def Info.has_block (info : Info) (name : String) : Bool :=
  (info.name_index.find? (fun e => e.1 == name)).isSome

/-- The `name_index.entry(key).or_default().push(id)` step: append `id`
to the entry of `key`, creating the entry if absent. -/
def indexPush (idx : List (String × List Nat)) (key : String) (id : Nat) :
    List (String × List Nat) :=
  match idx with
  | [] => [(key, [id])]
  | (k, ids) :: rest =>
    if k == key then (k, ids ++ [id]) :: rest else (k, ids) :: indexPush rest key id

/-- The `self.blocks[p].children.push(id)` step: append `id` to the
children list of the block record at position `p`. -/
def pushChildAt (blocks : List BlockInfo) (p : Nat) (id : Nat) : List BlockInfo :=
  match blocks, p with
  | [], _ => []
  | b :: rest, 0 => { b with children := b.children ++ [id] } :: rest
  | b :: rest, Nat.succ p => b :: pushChildAt rest p id

/-- Rust `Info::enter_block`: allocate the next id, record the block
at the current depth under the current parent, register it in the
parent's children list and the name index, then descend.  Returns the
value `old_parent.unwrap_or(id)` together with the new state; `none`
models the `block.name.expect("block should have name")` panic. -/
def Info.enter_block (info : Info) (block : Block) : Option (Nat × Info) :=
  match block.name with
  | none => none
  | some name =>
    let id := info.id_counter
    let bi : BlockInfo :=
      { id := id, name := name, span := block.span, depth := info.current_depth,
        parent := info.current_parent, children := [] }
    let blocks :=
      match info.current_parent with
      | some p => pushChildAt info.blocks p id
      | none => info.blocks
    some
      (info.current_parent.getD id,
        { blocks := blocks ++ [bi],
          name_index := indexPush info.name_index name.key id,
          id_counter := id + 1,
          current_parent := some id,
          current_depth := info.current_depth + 1 })

/-- Rust `Info::exit_block`: ascend one level; note that the restored
`current_parent` is always `Some(old_parent)`, even when the block just
left was a top-level block. -/
def Info.exit_block (info : Info) (old_parent : Nat) : Info :=
  { info with current_depth := info.current_depth - 1,
              current_parent := some old_parent }

mutual

/-- Rust `impl InfoWalker for Block`: enter the block, walk its
children, exit. -/
def Block.collect_info (b : Block) (info : Info) : Option Info :=
  match info.enter_block b with
  | none => none
  | some (old_parent, info₁) =>
    match collectInfoNodes b.children info₁ with
    | none => none
    | some info₂ => some (info₂.exit_block old_parent)
termination_by sizeOf b
decreasing_by
  cases b with
  | mk i nm attrs children sp => simp [Block.children]; omega

/-- The `for child in children` loop of the block walker. -/
def collectInfoNodes (ns : List Node) (info : Info) : Option Info :=
  match ns with
  | [] => some info
  | n :: rest =>
    match n.collect_info info with
    | none => none
    | some info' => collectInfoNodes rest info'
termination_by sizeOf ns
decreasing_by
  all_goals simp
  omega

/-- Rust `impl InfoWalker for Node`: only block children are walked. -/
def Node.collect_info (n : Node) (info : Info) : Option Info :=
  match n with
  | .block b => b.collect_info info
  | .text _ => some info
termination_by sizeOf n
decreasing_by
  simp

end

/-- The `for block in blocks` loop of the document walker. -/
def collectInfoBlocks (bs : List Block) (info : Info) : Option Info :=
  match bs with
  | [] => some info
  | b :: rest =>
    match b.collect_info info with
    | none => none
    | some info' => collectInfoBlocks rest info'

/-- Rust `impl InfoWalker for MarstonDocument`: walk every top-level
block in order. -/
def MarstonDocument.collect_info (d : MarstonDocument) (info : Info) : Option Info :=
  collectInfoBlocks d.blocks info

/-! Parser of `ast/parser.rs`.  This file is from the snapshot's
parser generation of the AST: values are a span-less enum and a block's
attributes are a `FxHashMap<Spur, Value>`; the corresponding embedded
types carry a `P` prefix. -/

/-- Token kinds of `lexer.rs`. -/
inductive TokenKind where
  | bool (b : Bool)
  | braceOpen
  | braceClose
  | bracketOpen
  | bracketClose
  | parenOpen
  | parenClose
  | dot
  | equals
  | comma
  | number (n : F64)
  | string (s : String)
  | identifier (s : String)
deriving DecidableEq, Repr

/-- Rust `Display for TokenKind` (used in parser error messages). -/
def TokenKind.display : TokenKind → String
  | .bool true => "true"
  | .bool false => "false"
  | .braceOpen => "\x7b"
  | .braceClose => "\x7d"
  | .bracketOpen => "["
  | .bracketClose => "]"
  | .parenOpen => "("
  | .parenClose => ")"
  | .dot => "."
  | .equals => "="
  | .comma => ","
  | .number n => toString n
  | .string s => s
  | .identifier ident => ident

/-- A lexed token: kind plus source span. -/
structure Token where
  kind : TokenKind
  span : Span
deriving DecidableEq, Repr

/-- Values as built by this parser generation (`Value` in the parser
file): a span-less tagged union. -/
inductive PValue where
  | string (s : String)
  | number (n : F64)
  | boolean (b : Bool)
  | array (vs : List PValue)
deriving Repr

mutual

/-- Blocks as built by this parser generation: optional interned name,
attribute map (association-list model of `FxHashMap<Spur, Value>`),
children, span. -/
inductive PBlock where
  | mk (name : Option String) (attributes : List (String × PValue))
      (children : List PNode) (span : Span)

/-- Children of a parser-generation block. -/
inductive PNode where
  | block (b : PBlock)
  | text (s : String)

end

/-- Projection: parsed block name. -/
def PBlock.name : PBlock → Option String
  | .mk n _ _ _ => n

/-- Projection: parsed block attribute map. -/
def PBlock.attributes : PBlock → List (String × PValue)
  | .mk _ a _ _ => a

/-- Projection: parsed block children. -/
def PBlock.children : PBlock → List PNode
  | .mk _ _ c _ => c

/-- Projection: parsed block span. -/
def PBlock.span : PBlock → Span
  | .mk _ _ _ sp => sp

/-- Rust `HashMap::insert` on the association-list model: replace the
binding in place if the key is present, append otherwise. -/
def hmInsert (m : List (String × PValue)) (k : String) (v : PValue) :
    List (String × PValue) :=
  match m with
  | [] => [(k, v)]
  | (k', v') :: rest => if k' == k then (k, v) :: rest else (k', v') :: hmInsert rest k v

/-- A Rust panic of the parser, or exhaustion of the embedding's fuel.
`indexOutOfBounds i` models `self.tokens[i]` with `i` out of range. -/
inductive ParserPanic where
  | indexOutOfBounds (idx : Nat)
  | fuelExhausted
deriving DecidableEq, Repr

/-- Parser state (`Parser`): the token vector, the cursor, and the
global diagnostics bag.  The document under construction is threaded
separately by the top-level loop, which is the only code touching it. -/
structure PState where
  tokens : List Token
  current : Nat
  bag : ReportsBag
deriving DecidableEq, Repr

/-- Modelled from the spec: the `error_report!` macro is declared at
the crate root, which is absent from the snapshot.  Per the spec every
parse error is an error-severity diagnostic labelled at its span, and
per the `report!` macro in `reports.rs` building an error report sets
the bag's sticky flag. -/
def errorReport (message : String) (span : Span) : Report :=
  { kind := .error, message := message, span := span,
    labels := [⟨span, message, .brightRed⟩], notes := [] }

/-- Emit one parser error: mark the error flag and add the report. -/
def PState.emitError (s : PState) (message : String) (span : Span) : PState :=
  { s with bag := (s.bag.mark_errors).add (errorReport message span) }

/-- Rust `Parser::is_at_end`: `self.current >= self.tokens.len()`. -/
def PState.is_at_end (s : PState) : Bool :=
  decide (s.tokens.length ≤ s.current)

/-- Rust `Parser::current`: `&self.tokens[self.current]`, an unchecked
index that panics when the input is exhausted. -/
def PState.currentTok (s : PState) : Except ParserPanic Token :=
  match s.tokens.get? s.current with
  | some t => .ok t
  | none => .error (.indexOutOfBounds s.current)

/-- Rust `Parser::advance`: bounds-checked cursor step returning the
token stepped over. -/
def PState.advance (s : PState) : Option Token × PState :=
  if !s.is_at_end then (s.tokens.get? s.current, { s with current := s.current + 1 })
  else (none, s)

/-- Rust `Parser::peek_ahead`. -/
def PState.peek_ahead (s : PState) (offset : Nat) : Option Token :=
  s.tokens.get? (s.current + offset)

/-- Rust `Parser::previous`. -/
def PState.previous (s : PState) : Option Token :=
  if 0 < s.current then s.tokens.get? (s.current - 1) else none

/-- Rust `Parser::check`: compare the current token's kind (panics at
end of input like `current`). -/
def PState.check (s : PState) (token_type : TokenKind) : Except ParserPanic Bool := do
  let t ← s.currentTok
  pure (t.kind == token_type)

/-- Rust `Parser::match_token`: advance when the current token has the
given kind. -/
def PState.match_token (s : PState) (token_type : TokenKind) :
    Except ParserPanic (Bool × PState) := do
  let c ← s.check token_type
  if c then pure (true, (s.advance).2) else pure (false, s)

/-- Rust `Parser::consume`: advance over an expected token kind, or
record an `Expected '…', found '…'` diagnostic at the current token. -/
def PState.consume (s : PState) (token_type : TokenKind) (message : String) :
    Except ParserPanic (Option Token × PState) := do
  let c ← s.check token_type
  if c then pure s.advance
  else do
    let t ← s.currentTok
    let error_msg := "Expected '" ++ token_type.display ++ "', found '" ++ t.kind.display ++ "'"
    pure (none, s.emitError (error_msg ++ ". " ++ message) t.span)

/-- Rust `Parser::consume_with_span`: like `consume` but the
diagnostic is anchored at a caller-provided span. -/
def PState.consume_with_span (s : PState) (token_type : TokenKind) (message : String)
    (span : Span) : Except ParserPanic (Option Token × PState) := do
  let c ← s.check token_type
  if c then pure s.advance
  else do
    let t ← s.currentTok
    let error_msg := "Expected '" ++ token_type.display ++ "', found '" ++ t.kind.display ++ "'"
    pure (none, s.emitError (error_msg ++ ". " ++ message) span)

/-- Rust `Parser::consume_identifier`: intern and advance over an
identifier token, or record a diagnostic. -/
def PState.consume_identifier (s : PState) (message : String) :
    Except ParserPanic (Option String × PState) := do
  let t ← s.currentTok
  match t.kind with
  | .identifier name => pure (some name, (s.advance).2)
  | _ =>
    pure (none,
      s.emitError ("Expected identifier, found '" ++ t.kind.display ++ "'. " ++ message) t.span)

/-- Rust `Parser::error_at_current`: diagnostic at the current token's
span (panics at end of input like `current`). -/
def PState.error_at_current (s : PState) (message : String) : Except ParserPanic PState := do
  let t ← s.currentTok
  pure (s.emitError message t.span)

mutual

/-- Rust `Parser::parse_value`: literal, or bracketed array; on any
other token an error diagnostic.  Non-array results advance over the
consumed literal (the error case advances over the offending token). -/
def parseValue : Nat → PState → Except ParserPanic (Option PValue × PState)
  | 0, _ => .error .fuelExhausted
  | Nat.succ fuel, s => do
    let t ← s.currentTok
    match t.kind with
    | .string str => pure (some (.string str), (s.advance).2)
    | .number num => pure (some (.number num), (s.advance).2)
    | .bool b => pure (some (.boolean b), (s.advance).2)
    | .bracketOpen => do
      let s := (s.advance).2
      let c ← s.check .bracketClose
      let (values, s) ← if c then pure (([] : List PValue), s) else parseArrayItems fuel [] s
      let (close, s) ← s.consume .bracketClose "Expected closing bracket after array"
      match close with
      | none => pure (none, s)
      | some _ => pure (some (.array values), s)
    | _ => do
      let s ← s.error_at_current "expected the value to be one of: string, boolean, number, array."
      pure (none, (s.advance).2)

/-- The `loop` collecting comma-separated array elements inside
`parse_value`. -/
def parseArrayItems : Nat → List PValue → PState →
    Except ParserPanic (List PValue × PState)
  | 0, _, _ => .error .fuelExhausted
  | Nat.succ fuel, values, s => do
    let (v, s) ← parseValue fuel s
    match v with
    | some value =>
      let values := values ++ [value]
      let (matched, s) ← s.match_token .comma
      if matched then parseArrayItems fuel values s else pure (values, s)
    | none => pure (values, s)

/-- Rust `Parser::parse_attr`: `'.' IDENT '=' value`; every failing
`consume`/`parse_value` makes the whole attribute `None` (the `?`
operator), keeping any state changes and diagnostics. -/
def parseAttr : Nat → PState → Except ParserPanic (Option (String × PValue) × PState)
  | 0, _ => .error .fuelExhausted
  | Nat.succ fuel, s => do
    let (d, s) ← s.consume .dot "Attributes are required to start with a dot"
    match d with
    | none => pure (none, s)
    | some _ => do
      let (ident, s) ← s.consume_identifier "Expected attribute name"
      match ident with
      | none => pure (none, s)
      | some identifier => do
        let (eq, s) ← s.consume .equals "attribute name must be separated by an equals sign"
        match eq with
        | none => pure (none, s)
        | some _ => do
          let (v, s) ← parseValue fuel s
          match v with
          | none => pure (none, s)
          | some value => pure (some (identifier, value), s)

/-- The `while !self.check(&ParenClose) && !self.is_at_end()` loop of
`parse_block` collecting the parenthesised attribute list; an invalid
attribute breaks out of the loop. -/
def parseAttrList : Nat → List (String × PValue) → PState →
    Except ParserPanic (List (String × PValue) × PState)
  | 0, _, _ => .error .fuelExhausted
  | Nat.succ fuel, attrs, s => do
    let c ← s.check .parenClose
    if !c && !s.is_at_end then do
      let (attr, s) ← parseAttr fuel s
      let t ← s.currentTok
      let s ←
        if t.kind ≠ .parenClose then do
          let error_span :=
            match s.previous with
            | some prev => prev.span.toEnd
            | none => t.span
          let (_, s) ← s.consume_with_span .comma "Attributes must be separated by commas"
            error_span
          pure s
        else pure s
      match attr with
      | some (attr_name, attr_value) => parseAttrList fuel (hmInsert attrs attr_name attr_value) s
      | none => pure (attrs, s)
    else pure (attrs, s)

/-- The `while !self.check(&BraceClose) && !self.is_at_end()` loop of
`parse_block` over the block body: `'.' IDENT '='` (2-token lookahead)
is an attribute of the enclosing block, `'.' IDENT` starts a nested
block, a string is text content, anything else records a diagnostic and
advances one token. -/
def parseChildren : Nat → List (String × PValue) → List PNode → PState →
    Except ParserPanic (List (String × PValue) × List PNode × PState)
  | 0, _, _, _ => .error .fuelExhausted
  | Nat.succ fuel, attrs, children, s => do
    let c ← s.check .braceClose
    if !c && !s.is_at_end then do
      let t ← s.currentTok
      if t.kind == .dot then
        match s.peek_ahead 2 with
        | some ahead =>
          match ahead.kind with
          | .equals => do
            let (attr, s) ← parseAttr fuel s
            let attrs :=
              match attr with
              | some (attr_name, attr_value) => hmInsert attrs attr_name attr_value
              | none => attrs
            let (_, s) ← s.match_token .comma
            parseChildren fuel attrs children s
          | _ => do
            let (child, s) ← parseBlock fuel s
            let (_, s) ← s.match_token .comma
            parseChildren fuel attrs (children ++ [PNode.block child]) s
        | none => do
          let s ← s.error_at_current "Unexpected end of input after '.'"
          pure (attrs, children, s)
      else
        match t.kind with
        | .string str => do
          let s := (s.advance).2
          let (_, s) ← s.match_token .comma
          parseChildren fuel attrs (children ++ [PNode.text str]) s
        | _ => do
          let s ← s.error_at_current
            "Invalid block children. Expected a block, an attribute, or content"
          parseChildren fuel attrs children ((s.advance).2)
    else pure (attrs, children, s)

/-- Rust `Parser::parse_block`: leading dot, block name, optional
parenthesised attribute list, optional braced body (which may add both
children and further attributes), final span from the leading dot
through the last consumed token. -/
def parseBlock : Nat → PState → Except ParserPanic (PBlock × PState)
  | 0, _ => .error .fuelExhausted
  | Nat.succ fuel, s => do
    let (dot, s) ← s.consume .dot "Blocks are required to start with a dot"
    let (identifier, s) ← s.consume_identifier "Expected block name"
    let copen ← s.check .parenOpen
    let (attrs, s) ←
      if copen then do
        let s := (s.advance).2
        let (attrs, s) ← parseAttrList fuel [] s
        let (_, s) ← s.consume .parenClose
          "Block's inner attribute list is missing a closing parenthesis"
        pure (attrs, s)
      else pure (([] : List (String × PValue)), s)
    let cbrace ← s.check .braceOpen
    let (attrs, children, s) ←
      if cbrace then do
        let s := (s.advance).2
        let (attrs, children, s) ← parseChildren fuel attrs [] s
        let (_, s) ← s.consume .braceClose "Blocks should end in a brace"
        pure (attrs, children, s)
      else pure (attrs, ([] : List PNode), s)
    let span :=
      match dot, s.previous with
      | some d, some prev => d.span.to prev.span
      | _, _ => Span.default
    pure (PBlock.mk identifier attrs children span, s)

end

/-- Rust `Parser::parse`: the top-level `while !is_at_end` loop,
appending each parsed block to the document and stopping as soon as the
diagnostics bag holds any error. -/
def parseLoop : Nat → PState → List PBlock → Except ParserPanic (PState × List PBlock)
  | 0, _, _ => .error .fuelExhausted
  | Nat.succ fuel, s, doc =>
    if s.is_at_end then .ok (s, doc)
    else do
      let (block, s) ← parseBlock fuel s
      let doc := doc ++ [block]
      if s.bag.has_errors then .ok (s, doc)
      else parseLoop fuel s doc

/-- Run the parser over a token stream starting from a given bag
(`Parser::new` + `Parser::parse`). -/
def runParse (fuel : Nat) (tokens : List Token) (bag : ReportsBag) :
    Except ParserPanic (PState × List PBlock) :=
  parseLoop fuel { tokens := tokens, current := 0, bag := bag } []

/-- Iterate the body of the top-level parse loop (`parse_block` on the
running state) `k` times, with the same fuel schedule as `parseLoop`.
Used to name "the state after the k-th top-level block". -/
def iterParseBlocks : Nat → Nat → PState → Except ParserPanic PState
  | _, 0, s => .ok s
  | 0, Nat.succ _, _ => .error .fuelExhausted
  | Nat.succ fuel, Nat.succ k, s => do
    let (_, s') ← parseBlock fuel s
    iterParseBlocks fuel k s'

/-! Condition engine of `validator/conditions.rs`. -/

/-- Outcome of evaluating a condition: a verdict and explanatory
messages (`ConditionResult`). -/
structure ConditionResult where
  result : Bool
  messages : List String

/-- Rust `ConditionResult::new`. -/
def ConditionResult.new (result : Bool) (message : Option String) : ConditionResult :=
  { result := result,
    messages := match message with | some msg => [msg] | none => [] }

/-- Rust `ConditionResult::join` (conjunction of verdicts, message
concatenation); used by the `And` combinator. -/
def ConditionResult.join (a b : ConditionResult) : ConditionResult :=
  { result := a.result && b.result, messages := a.messages ++ b.messages }

/-- A condition is a predicate over the block under validation
(`Condition::evaluate` over a `ValidationContext`, which only wraps the
block).  Trait objects such as `AttributeEquals` are modelled directly
as functions. -/
abbrev Condition := Block → ConditionResult

/-- Rust `And<C1, C2>`: evaluate both and join. -/
def Condition.and (c1 c2 : Condition) : Condition :=
  fun ctx => (c1 ctx).join (c2 ctx)

/-! Validator engine of `validator/mod.rs`.  The boxed check closures
are modelled as tagged check descriptors plus evaluation functions, one
constructor per combinator of the source (the URL/language-tag
combinators lean on external crates and are exercised by no claim, so
they are omitted). -/

/-- Rust `TargetType`. -/
inductive TargetType where
  | attribute
  | block
  | either
deriving DecidableEq, Repr

/-- The ordered, short-circuiting type checks (`type_checks` entries). -/
inductive TypeCheck where
  | must_be_string
  | must_be_number
  | must_be_boolean
  | must_be_array (inner_ty : Option ValueKind)

/-- The non-short-circuiting value checks (`value_checks` entries). -/
inductive ValueCheck where
  | string_not_empty
  | disallowed_chars (disallowed : List Char)
  | array_not_empty
  | string_min_length (min : Nat)
  | string_min_length_error (min : Nat)
  | string_max_length (max : Nat)
  | string_max_length_error (max : Nat)
  | string_not_generic (generic_values : List String)
  | number_min (min : F64)
  | number_max (max : F64)
  | string_file_extension (extension : String)
  | string_prefer_https
  | string_allowed_values (allowed : List String)

/-- A compiled validation rule (`GenericValidator`); the
`required_condition` and `valid_if` fields are the ones installed by
`validator/conditions.rs`. -/
structure GenericValidator where
  name : String
  target_type : TargetType
  parent : Option (List String)
  required : Bool
  type_checks : List TypeCheck
  value_checks : List ValueCheck
  no_children : Bool
  require_on_of_attrs : List String
  disallowed : Bool
  required_condition : Option Condition
  valid_if : Option Condition

/-- Rust `GenericValidator::new`. -/
def GenericValidator.new (name : String) : GenericValidator :=
  { name := name, target_type := .either, parent := none, required := false,
    type_checks := [], value_checks := [], no_children := false,
    require_on_of_attrs := [], disallowed := false,
    required_condition := none, valid_if := none }

/-- Rust `GenericValidator::as_attribute`. -/
def GenericValidator.as_attribute (self : GenericValidator) : GenericValidator :=
  { self with target_type := .attribute }

/-- Rust `GenericValidator::as_block`. -/
def GenericValidator.as_block (self : GenericValidator) : GenericValidator :=
  { self with target_type := .block }

/-- Rust `GenericValidator::in_parent`. -/
def GenericValidator.in_parent (self : GenericValidator) (parent_names : List String) :
    GenericValidator :=
  { self with parent := some parent_names }

/-- Rust `GenericValidator::required`. -/
def GenericValidator.set_required (self : GenericValidator) : GenericValidator :=
  { self with required := true }

/-- Rust `GenericValidator::required_if` (from `conditions.rs`). -/
def GenericValidator.required_if (self : GenericValidator) (condition : Condition) :
    GenericValidator :=
  { self with required_condition := some condition }

/-- Rust `GenericValidator::is_required` (from `conditions.rs`): the
installed condition's verdict, `false` when none is installed. -/
def GenericValidator.is_required (self : GenericValidator) (context : Block) : Bool :=
  match self.required_condition with
  | some cond => (cond context).result
  | none => false

/-- Rust `GenericValidator::valid_if` (from `conditions.rs`). -/
def GenericValidator.set_valid_if (self : GenericValidator) (condition : Condition) :
    GenericValidator :=
  { self with valid_if := some condition }

/-- Rust `GenericValidator::must_be_string` (and siblings): push one
type check. -/
def GenericValidator.push_type_check (self : GenericValidator) (tc : TypeCheck) :
    GenericValidator :=
  { self with type_checks := self.type_checks ++ [tc] }

/-- Rust `GenericValidator::must_be_string`. -/
def GenericValidator.must_be_string (self : GenericValidator) : GenericValidator :=
  self.push_type_check .must_be_string

/-- Rust `GenericValidator::must_be_number`. -/
def GenericValidator.must_be_number (self : GenericValidator) : GenericValidator :=
  self.push_type_check .must_be_number

/-- Rust `GenericValidator::must_be_boolean`. -/
def GenericValidator.must_be_boolean (self : GenericValidator) : GenericValidator :=
  self.push_type_check .must_be_boolean

/-- Rust `GenericValidator::must_be_array`. -/
def GenericValidator.must_be_array (self : GenericValidator) (inner_ty : Option ValueKind) :
    GenericValidator :=
  self.push_type_check (.must_be_array inner_ty)

/-- Rust `GenericValidator::check_value`: push one value check. -/
def GenericValidator.check_value (self : GenericValidator) (check : ValueCheck) :
    GenericValidator :=
  { self with value_checks := self.value_checks ++ [check] }

/-- Rust `GenericValidator::string_not_empty`. -/
def GenericValidator.string_not_empty (self : GenericValidator) : GenericValidator :=
  self.check_value .string_not_empty

/-- Rust `GenericValidator::string_allowed_values` (the snapshot's
`link.rs` passes an extra boolean to a newer overload; the list
argument is what the check evaluates). -/
def GenericValidator.string_allowed_values (self : GenericValidator)
    (allowed : List String) : GenericValidator :=
  self.check_value (.string_allowed_values allowed)

/-- Rust `GenericValidator::string_min_length`. -/
def GenericValidator.string_min_length (self : GenericValidator) (min : Nat) :
    GenericValidator :=
  self.check_value (.string_min_length min)

/-- Rust `GenericValidator::string_max_length`. -/
def GenericValidator.string_max_length (self : GenericValidator) (max : Nat) :
    GenericValidator :=
  self.check_value (.string_max_length max)

/-- Rust `GenericValidator::number_min`. -/
def GenericValidator.number_min (self : GenericValidator) (min : F64) : GenericValidator :=
  self.check_value (.number_min min)

/-- Rust `GenericValidator::block_no_children`. -/
def GenericValidator.block_no_children (self : GenericValidator) : GenericValidator :=
  { self with no_children := true }

/-- Model of Rust `str::trim`: drop leading and trailing whitespace
(defined over the character list so that concrete instances compute). -/
def rustTrim (s : String) : String :=
  ⟨((s.data.dropWhile Char.isWhitespace).reverse.dropWhile Char.isWhitespace).reverse⟩

/-- Model of Rust `str::to_lowercase` (character-wise). -/
def rustToLower (s : String) : String :=
  ⟨s.data.map Char.toLower⟩

/-- Model of Rust `str::starts_with`. -/
def rustStartsWith (s p : String) : Bool :=
  p.data.isPrefixOf s.data

/-- Model of Rust `str::ends_with`. -/
def rustEndsWith (s p : String) : Bool :=
  p.data.reverse.isPrefixOf s.data.reverse

/-- Model of Rust `str::len` (character count; the source counts utf-8
bytes, which agrees on the ASCII vocabulary the rules use). -/
def rustLen (s : String) : Nat :=
  s.data.length

/-- Report built by the `report!` macro of `reports.rs`: the primary
span is `Span::default()`, the labelled spans carry the positions. -/
def vReport (kind : ReportKind) (message : String) (labels : List RLabel)
    (notes : List String) : Report :=
  { kind := kind, message := message, span := Span.default, labels := labels, notes := notes }

/-- Evaluate one type check closure: the reports it adds to the bag
and its boolean verdict (`false` aborts the remaining checks). -/
def runTypeCheck : TypeCheck → Value → Span → List Report × Bool
  | .must_be_string, value, span =>
    match value.kind.as_string with
    | none =>
      ([vReport .error "Value must be a string"
          [⟨span, "Expected a string value here", .brightRed⟩]
          ["Use quotes to define a string value, e.g., \"my value\""]], false)
    | some _ => ([], true)
  | .must_be_number, value, span =>
    match value.kind.as_number with
    | none =>
      ([vReport .error "Value must be a number"
          [⟨span, "Expected a numeric value here", .brightRed⟩]
          ["Use a numeric value, e.g., 42 or 3.14"]], false)
    | some _ => ([], true)
  | .must_be_boolean, value, span =>
    match value.kind.as_boolean with
    | none =>
      ([vReport .error "Value must be a boolean"
          [⟨span, "Expected true or false here", .brightRed⟩]
          ["Use 'true' or 'false' as the value"]], false)
    | some _ => ([], true)
  | .must_be_array inner_ty, value, span =>
    match value.kind.as_array with
    | some array =>
      match inner_ty with
      | some inner =>
        if array.all (fun item => item.kind.is_same_kind inner) then ([], true)
        else
          ([vReport .error "Array item must be of the declared element type"
              [⟨span, "Expected an array of specific type", .brightRed⟩]
              ["Ensure all items in the array match the expected type"]], false)
      | none => ([], true)
    | none =>
      ([vReport .error "Value must be an array"
          [⟨span, "Expected an array value here", .brightRed⟩]
          ["Use square brackets to define an array, e.g., [1, 2, 3]"]], false)

/-- Render a list of strings the way Rust's `{:?}` debug-formats a
`Vec<String>`. -/
def fmtStringList (xs : List String) : String :=
  "[" ++ String.intercalate ", " (xs.map (fun x => "\"" ++ x ++ "\"")) ++ "]"

/-- Evaluate one value check closure: the reports it adds to the bag
(value checks have no verdict and never stop each other). -/
def runValueCheck : ValueCheck → Value → Span → List Report
  | .string_not_empty, value, span =>
    match value.kind.as_string with
    | some s =>
      if (rustTrim s).data.isEmpty then
        [vReport .error "String cannot be empty"
          [⟨span, "This value must not be empty", .brightRed⟩]
          ["Provide a meaningful non-empty value"]]
      else []
    | none => []
  | .disallowed_chars disallowed, value, span =>
    match value.kind.as_string with
    | some s =>
      s.toList.filterMap (fun c =>
        if disallowed.contains c then
          some (vReport .error ("Disallowed character found: '" ++ String.singleton c ++ "'")
            [⟨span, "Disallowed character found: '" ++ String.singleton c ++ "'", .brightRed⟩]
            ["Remove the disallowed character"])
        else none)
    | none => []
  | .array_not_empty, value, span =>
    match value.kind.as_array with
    | some array =>
      if array.isEmpty then
        [vReport .error "Array cannot be empty"
          [⟨span, "This array must not be empty", .brightRed⟩] []]
      else []
    | none => []
  | .string_min_length min, value, span =>
    match value.kind.as_string with
    | some s =>
      if rustLen (rustTrim s) < min then
        [vReport .warning ("String too short (minimum " ++ toString min ++ " characters)")
          [⟨span, "Consider making this more descriptive", .brightYellow⟩]
          ["Minimum recommended length is " ++ toString min ++ " characters"]]
      else []
    | none => []
  | .string_min_length_error min, value, span =>
    match value.kind.as_string with
    | some s =>
      if rustLen (rustTrim s) < min then
        [vReport .error ("String too short (minimum " ++ toString min ++ " characters)")
          [⟨span, "This value is too short", .brightRed⟩]
          ["Minimum required length is " ++ toString min ++ " characters"]]
      else []
    | none => []
  | .string_max_length max, value, span =>
    match value.kind.as_string with
    | some s =>
      if max < rustLen (rustTrim s) then
        [vReport .warning ("String exceeds " ++ toString max ++ " characters")
          [⟨span, "Consider shortening this value", .brightYellow⟩]
          ["Maximum recommended length is " ++ toString max ++ " characters"]]
      else []
    | none => []
  | .string_max_length_error max, value, span =>
    match value.kind.as_string with
    | some s =>
      if max < rustLen (rustTrim s) then
        [vReport .error ("String exceeds " ++ toString max ++ " characters")
          [⟨span, "This value is too long", .brightRed⟩]
          ["Maximum allowed length is " ++ toString max ++ " characters"]]
      else []
    | none => []
  | .string_not_generic generic_values, value, span =>
    match value.kind.as_string with
    | some s =>
      if generic_values.any (fun v => rustToLower (rustTrim s) == v) then
        [vReport .warning "Generic or uninformative value"
          [⟨span, "Try using a more specific value", .brightYellow⟩]
          ["Generic values provide little context or value"]]
      else []
    | none => []
  | .number_min min, value, span =>
    match value.kind.as_number with
    | some n =>
      if n < min then
        [vReport .error ("Number must be at least " ++ toString min)
          [⟨span, "Value " ++ toString n ++ " is below minimum " ++ toString min, .brightRed⟩]
          ["Minimum allowed value is " ++ toString min]]
      else []
    | none => []
  | .number_max max, value, span =>
    match value.kind.as_number with
    | some n =>
      if max < n then
        [vReport .error ("Number must be at most " ++ toString max)
          [⟨span, "Value " ++ toString n ++ " exceeds maximum " ++ toString max, .brightRed⟩]
          ["Maximum allowed value is " ++ toString max]]
      else []
    | none => []
  | .string_file_extension extension, value, span =>
    match value.kind.as_string with
    | some s =>
      let expected_ext := if rustStartsWith extension "." then extension else "." ++ extension
      if !(rustEndsWith (rustTrim s) expected_ext) then
        [vReport .warning ("File should have " ++ expected_ext ++ " extension")
          [⟨span, "Expected " ++ expected_ext ++ " file", .brightYellow⟩]
          ["Ensure the file has a " ++ expected_ext ++ " extension"]]
      else []
    | none => []
  | .string_prefer_https, value, span =>
    match value.kind.as_string with
    | some s =>
      if rustStartsWith (rustTrim s) "http://" then
        [vReport .warning "Consider using HTTPS instead of HTTP"
          [⟨span, "HTTP URL detected", .brightYellow⟩]
          ["HTTPS provides better security for external resources",
           "Many browsers may block HTTP resources on HTTPS pages"]]
      else []
    | none => []
  | .string_allowed_values allowed, value, span =>
    match value.kind.as_string with
    | some s =>
      if !(allowed.any (fun v => rustToLower (rustTrim s) == rustToLower v)) then
        [vReport .warning ("Uncommon value '" ++ rustTrim s ++ "' specified")
          [⟨span, "Consider if this value is appropriate", .brightYellow⟩]
          ["Common values are: " ++ String.intercalate ", " allowed,
           "Other values may not be supported by all browsers"]]
      else []
    | none => []

/-- The `for type_check in &self.type_checks` loop of
`validate_attribute_value`: run in order, return the accumulated
reports and stop with verdict `false` at the first failing check. -/
def runTypeChecks : List TypeCheck → Value → Span → List Report × Bool
  | [], _, _ => ([], true)
  | tc :: rest, value, span =>
    let (r, ok) := runTypeCheck tc value span
    if ok then
      let (r', ok') := runTypeChecks rest value span
      (r ++ r', ok')
    else (r, false)

/-- Rust `GenericValidator::validate_attribute_value`: type checks in
order with an early return at the first failure; if all pass, every
value check runs. -/
def GenericValidator.validate_attribute_value (self : GenericValidator) (value : Value)
    (span : Span) : List Report :=
  let (r, ok) := runTypeChecks self.type_checks value span
  if ok then r ++ self.value_checks.flatMap (fun check => runValueCheck check value span)
  else r

/-- Rust `GenericValidator::validate_block`: enforce `no_children` and
`require_one_of_attrs` on one found block.  `none` models the
`block.name()` unwrap panic inside the report constructions. -/
def GenericValidator.validate_block (self : GenericValidator) (block : Block)
    (name_str : String) : Option (List Report) := do
  let r1 ←
    if self.no_children && !block.children.isEmpty then do
      let nameI ← block.name
      some [vReport .error ("'" ++ name_str ++ "' should not have children")
        [⟨nameI.span, "'" ++ name_str ++ "' defined as block but should not have children",
          .brightRed⟩]
        ["Remove any child blocks or attributes from '" ++ name_str ++ "'"]]
    else some []
  let required := self.require_on_of_attrs
  if 0 < required.length then
    let hits := required.filterMap (fun attr => block.get_attribute attr)
    let r2 := hits.flatMap (fun attr => self.validate_attribute_value attr.value attr.value.span)
    if hits.isEmpty then do
      let nameI ← block.name
      some (r1 ++ r2 ++
        [vReport .error
          ("'" ++ name_str ++ "' should have one of the following attributes: " ++
            fmtStringList required)
          [⟨nameI.span,
            "'" ++ name_str ++ "' should have at least one of the following attributes: " ++
              fmtStringList required, .brightRed⟩]
          ["Add one of the following attributes to '" ++ name_str ++ "': " ++
            fmtStringList required]])
    else some (r1 ++ r2)
  else some r1

/-- Rust `GenericValidator::validate_found_items`: classify what was
found under one resolved location and cross-check it against the
declared target type.  The match arms are in source order.

Modelled from the spec: the snapshot's `validator/mod.rs` predates
`conditions.rs` (its struct lacks the `required_condition` field that
`required_if` installs), so its absent/absent arm consults only the
static `required` flag.  Per spec §4.6 step 3 a missing entity is an
error when "required (statically or via a satisfied `Condition`)"; the
arm therefore also consults `is_required` on the enclosing block
(`context`, `none` for the document root, where no catalog rule
installs a condition). -/
def GenericValidator.validate_found_items (self : GenericValidator)
    (found_as_attribute : Option Attribute) (found_as_block : List Block)
    (name_str : String) (parent : String) (parent_span : Span)
    (context : Option Block) : Option (List Report) :=
  let blocks : Option (List Block) :=
    if found_as_block.isEmpty then none else some found_as_block
  match found_as_attribute, blocks, self.target_type with
  | some attr, none, .attribute | some attr, none, .either =>
    some (self.validate_attribute_value attr.value attr.value.span)
  | none, some bs, .block | none, some bs, .either =>
    (bs.mapM (fun block =>
      if self.disallowed then do
        let nameI ← block.name
        some [vReport .error ("'" ++ name_str ++ "' should not be used")
          [⟨nameI.span, "'" ++ name_str ++ "' found as block but should not be used",
            .brightRed⟩]
          ["Remove '" ++ name_str ++ "' from '" ++ parent ++ "'"]]
      else self.validate_block block name_str)).map List.flatten
  | some attr, _, .block =>
    some [vReport .error ("'" ++ name_str ++ "' should be a block, not an attribute")
      [⟨attr.value.span, "'" ++ name_str ++ "' found as attribute but expected as block",
        .brightRed⟩]
      ["Define '" ++ name_str ++ "' as a block instead of an attribute"]]
  | _, some bs, .attribute =>
    some (bs.map (fun block =>
      let block_span :=
        match block.name with
        | some name => name.span
        | none => Span.default
      vReport .error ("'" ++ name_str ++ "' should be an attribute, not a block")
        [⟨block_span, "'" ++ name_str ++ "' found as block but expected as attribute",
          .brightRed⟩]
        ["Define '" ++ name_str ++ "' as an attribute instead of a block"]))
  | some attr, some bs, _ =>
    some (bs.map (fun block =>
      vReport .error ("'" ++ name_str ++ "' defined as both attribute and block")
        [⟨attr.value.span, "'" ++ name_str ++ "' defined as attribute here", .brightRed⟩,
         ⟨(block.name.map Interned.span).getD Span.default,
           "'" ++ name_str ++ "' defined as block here", .brightRed⟩]
        ["'" ++ name_str ++ "' should be defined only once, either as attribute or block"]))
  | none, none, _ =>
    let required_now :=
      self.required ||
        (match context with
         | some ctx => self.is_required ctx
         | none => false)
    if required_now then
      let expected_type :=
        match self.target_type with
        | .attribute => "attribute"
        | .block => "block"
        | .either => "attribute or block"
      some [vReport .error ("Missing required " ++ expected_type ++ " '" ++ name_str ++ "'")
        [⟨parent_span,
          "'" ++ name_str ++ "' " ++ expected_type ++ " is required in '" ++ parent ++ "'",
          .brightRed⟩]
        ["Add the required '" ++ name_str ++ "' " ++ expected_type]]
    else some []

/-- Rust `GenericValidator::validate_in_document_root`: unscoped scan
of the whole document for the name as attribute (last holder wins) or
as block (top-level or any direct child anywhere). -/
def GenericValidator.validate_in_document_root (self : GenericValidator)
    (doc : MarstonDocument) (name_str : String) : Option (List Report) :=
  let found_as_attribute :=
    (doc.blocks.filterMap (fun block => block.get_attribute self.name)).getLast?
  let found_as_block := doc.blocks.flatMap (fun block =>
    (match block.name with
     | some block_name => if block_name.key == self.name then [block] else []
     | none => []) ++ block.find_all_child_blocks self.name)
  self.validate_found_items found_as_attribute found_as_block name_str "document root"
    Span.default none

/-- Rust `GenericValidator::validate`: resolve the candidate locations
(ancestor path via `find_in_parent`, or the whole document) and check
each.  `none` models the `parent.name()` unwrap panic. -/
def GenericValidator.validate (self : GenericValidator) (doc : MarstonDocument) :
    Option (List Report) :=
  let name_str := self.name
  match self.parent with
  | some parent_keys =>
    ((doc.find_in_parent parent_keys).mapM (fun (parent : Block) => do
      let found_as_blocks := parent.find_all_child_blocks self.name
      let found_as_attrs := parent.get_attribute self.name
      let parent_name ← parent.name
      self.validate_found_items found_as_attrs found_as_blocks name_str parent_name.key
        parent_name.span (some parent))).map List.flatten
  | none => self.validate_in_document_root doc name_str

/-! Rule catalog pieces cited by the claims. -/

/-- Rust `is_unique_tag` from `html/tags.rs`: tags that must appear at
most once per document. -/
def is_unique_tag (tag : String) : Bool :=
  match tag with
  | "html" | "head" | "body" | "title" => true
  | _ => false

/-- The `AttributeEquals` predicate of the `"as"` rule in
`validator/rules/link.rs`: required exactly when the sibling `rel`
attribute is the string `"preload"`. -/
def relPreloadCondition : Condition := fun block =>
  match block.get_attribute "rel" with
  | some rel =>
    match rel.value.kind.as_string with
    | some s =>
      if s == "preload" then
        ConditionResult.new true (some "preload elements must have an as attribute")
      else ConditionResult.new false none
    | none => ConditionResult.new false none
  | none => ConditionResult.new false none

/-- The `"as"` validator of `validate_link` (`link.rs` lines 101-127):
attribute under `[head, link]`, string, non-empty, required when
`rel == "preload"`, value from a fixed vocabulary. -/
def asValidator : GenericValidator :=
  ((((((GenericValidator.new "as").in_parent ["head", "link"]).as_attribute).must_be_string).string_not_empty).required_if
      relPreloadCondition).string_allowed_values
    ["audio", "document", "embed", "fetch", "font", "image", "object", "script",
     "style", "track", "video", "worker"]

/-- The duplicate-collection loop of `validate_block_name_uniqueness`:
walk the `(name, span)` list, remember the first span of each name
(`seen` models the `HashMap`), and record every later occurrence
together with the first span. -/
def collectDuplicates : List (String × Span) → List (String × Span) →
    List ((String × Span) × Span)
  | [], _ => []
  | (name, span) :: rest, seen =>
    match seen.find? (fun e => e.1 == name) with
    | some entry => ((name, span), entry.2) :: collectDuplicates rest seen
    | none => collectDuplicates rest (seen ++ [(name, span)])

/-- Rust `validate_block_name_uniqueness` from
`validator/rules/document.rs`: report every repetition of a block name
in the index, cross-referencing the first occurrence. -/
def validate_block_name_uniqueness (info : Info) : List Report :=
  let all_names : List (String × Span) :=
    info.blocks.map (fun block => (block.name.key, block.span))
  let duplicates := collectDuplicates all_names []
  duplicates.map (fun dup =>
    let name := dup.1.1
    let dup_span := dup.1.2
    let orig_span := dup.2
    { kind := .error,
      message := "Duplicate block name '" ++ name ++ "' found",
      span := dup_span,
      labels := [⟨dup_span, "Block '" ++ name ++ "' redefined here", .brightRed⟩,
                 ⟨orig_span, "Block '" ++ name ++ "' first defined here", .yellow⟩],
      notes := ["'" ++ name ++ "' is a block that should occur only once per document"] })

/-! Specification-side reference definitions (refinement counterparts,
written from the spec's words, to be compared with the embedded code). -/

/-- Written from the spec (§4.4 ancestor-path resolution): a chain of
direct parentage from `r` through the names `ns` down to `b` — each
step moves to a direct child block carrying the next name.  The code's
`find_in_parent` is proved to return exactly the blocks reachable this
way from a matching top-level root. -/
inductive SpecDirectChain : Block → List String → Block → Prop where
  | nil (b : Block) : SpecDirectChain b [] b
  | cons {r c b : Block} {n : String} {ns : List String}
      (hmem : Node.block c ∈ r.children)
      (hname : ∃ i, c.name = some i ∧ i.key = n)
      (htail : SpecDirectChain c ns b) :
      SpecDirectChain r (n :: ns) b

/-! Concrete inputs used by the claim theorems and witnesses. -/

/-- Shorthand for a concrete span. -/
def sp (a b : Nat) : Span := ⟨a, b⟩

/-- A freshly initialised diagnostics bag. -/
def bag0 : ReportsBag := ReportsBag.init "file.mn" "src"

/-- Token stream of a lone `.` (input ends right after the block dot). -/
def toksLoneDot : List Token := [⟨.dot, sp 0 1⟩]

/-- Token stream of `.a{1}.b{}`: the first block contains an invalid
child (a bare number), the second block is well-formed. -/
def toksC3 : List Token :=
  [⟨.dot, sp 0 1⟩, ⟨.identifier "a", sp 1 2⟩, ⟨.braceOpen, sp 2 3⟩, ⟨.number 1, sp 3 4⟩,
   ⟨.braceClose, sp 4 5⟩, ⟨.dot, sp 5 6⟩, ⟨.identifier "b", sp 6 7⟩, ⟨.braceOpen, sp 7 8⟩,
   ⟨.braceClose, sp 8 9⟩]

/-- Token stream of `.b(.x){}`: a bare attribute without `= value`. -/
def toksC8 : List Token :=
  [⟨.dot, sp 0 1⟩, ⟨.identifier "b", sp 1 2⟩, ⟨.parenOpen, sp 2 3⟩, ⟨.dot, sp 3 4⟩,
   ⟨.identifier "x", sp 4 5⟩, ⟨.parenClose, sp 5 6⟩, ⟨.braceOpen, sp 6 7⟩,
   ⟨.braceClose, sp 7 8⟩]

/-- Token stream of `.b(.x=1,.x=2){}`: the same attribute key written
twice. -/
def toksC9 : List Token :=
  [⟨.dot, sp 0 1⟩, ⟨.identifier "b", sp 1 2⟩, ⟨.parenOpen, sp 2 3⟩, ⟨.dot, sp 3 4⟩,
   ⟨.identifier "x", sp 4 5⟩, ⟨.equals, sp 5 6⟩, ⟨.number 1, sp 6 7⟩, ⟨.comma, sp 7 8⟩,
   ⟨.dot, sp 8 9⟩, ⟨.identifier "x", sp 9 10⟩, ⟨.equals, sp 10 11⟩, ⟨.number 2, sp 11 12⟩,
   ⟨.parenClose, sp 12 13⟩, ⟨.braceOpen, sp 13 14⟩, ⟨.braceClose, sp 14 15⟩]

/-- Document with two top-level blocks, `head` and `body`. -/
def docHB : MarstonDocument :=
  ⟨[Block.mk 0 (some ⟨sp 1 5, "head"⟩) [] [] (sp 0 7),
    Block.mk 0 (some ⟨sp 9 13, "body"⟩) [] [] (sp 8 15)]⟩

/-- The `link` block of `.head{.link(.rel="preload")}` (no `as`). -/
def linkPreload : Block :=
  Block.mk 0 (some ⟨sp 7 11, "link"⟩)
    [⟨⟨sp 13 16, "rel"⟩, .mk (.string "preload") (sp 17 26)⟩] [] (sp 6 27)

/-- Document `.head{.link(.rel="preload")}`. -/
def docPreload : MarstonDocument :=
  ⟨[Block.mk 0 (some ⟨sp 1 5, "head"⟩) [] [Node.block linkPreload] (sp 0 29)]⟩

/-- The `link` block of `.head{.link(.rel="stylesheet")}` (no `as`). -/
def linkStylesheet : Block :=
  Block.mk 0 (some ⟨sp 7 11, "link"⟩)
    [⟨⟨sp 13 16, "rel"⟩, .mk (.string "stylesheet") (sp 17 29)⟩] [] (sp 6 30)

/-- Document `.head{.link(.rel="stylesheet")}`. -/
def docStylesheet : MarstonDocument :=
  ⟨[Block.mk 0 (some ⟨sp 1 5, "head"⟩) [] [Node.block linkStylesheet] (sp 0 32)]⟩

/-- Document with two top-level blocks both named `head`. -/
def docHeadHead : MarstonDocument :=
  ⟨[Block.mk 0 (some ⟨sp 1 5, "head"⟩) [] [] (sp 0 10),
    Block.mk 0 (some ⟨sp 12 16, "head"⟩) [] [] (sp 11 20)]⟩

/-- Document with two top-level blocks both named `link` (a name that
is not in the unique-tag set). -/
def docLinkLink : MarstonDocument :=
  ⟨[Block.mk 0 (some ⟨sp 1 5, "link"⟩) [] [] (sp 0 10),
    Block.mk 0 (some ⟨sp 12 16, "link"⟩) [] [] (sp 11 20)]⟩

/-- The `B` block that is a direct child of a top-level `A`. -/
def blockDirectB : Block := Block.mk 0 (some ⟨sp 5 6, "B"⟩) [] [] (sp 4 8)

/-- Document with chain `A > B` (direct child). -/
def docAB : MarstonDocument :=
  ⟨[Block.mk 0 (some ⟨sp 1 2, "A"⟩) [] [Node.block blockDirectB] (sp 0 9)]⟩

/-- The `B` block nested two levels under `A` (via `X`). -/
def blockNestedB : Block := Block.mk 0 (some ⟨sp 9 10, "B"⟩) [] [] (sp 8 12)

/-- Document with chain `A > X > B` (`B` is not a direct child of `A`). -/
def docAXB : MarstonDocument :=
  ⟨[Block.mk 0 (some ⟨sp 1 2, "A"⟩) []
      [Node.block (Block.mk 0 (some ⟨sp 5 6, "X"⟩) [] [Node.block blockNestedB] (sp 4 13))]
      (sp 0 14)]⟩

/-- A `GenericValidator` with one type check (`must_be_number`) and
one value check (`string_not_empty`), used to exhibit the type-check
short circuit. -/
def numberRule : GenericValidator :=
  ((GenericValidator.new "width").must_be_number).string_not_empty

/-- A string value, failing `must_be_number`, with a value that
`string_not_empty` would flag if it ran. -/
def blankStringValue : Value := .mk (.string " ") (sp 3 6)

/-! Claim theorems. -/

/-- Claim C10: `ReportsBag::clear_errors` empties the report list and
changes nothing else (file, source text and `has_errors` flag are
untouched); the `has_errors` flag is monotone under every
`add`/`print`/`clear_errors` (and `mark_errors`) call within one
file's compilation, and only `init` resets it to `false`. -/
theorem clear_errors_frame_and_error_flag_monotone :
    (∀ b : ReportsBag, (b.clear_errors).reports = [] ∧ (b.clear_errors).file = b.file ∧
      (b.clear_errors).source_content = b.source_content ∧
      (b.clear_errors).has_errors = b.has_errors) ∧
    (∀ (b : ReportsBag) (ops : List BagOp), b.has_errors = true →
      (applyBagOps b ops).has_errors = true) ∧
    (∀ f s, (ReportsBag.init f s).has_errors = false) := by
  refine ⟨fun b => ⟨rfl, rfl, rfl, rfl⟩, ?_, fun f s => rfl⟩
  intro b ops h
  induction ops generalizing b with
  | nil => exact h
  | cons op rest ih =>
    have hstep : (applyBagOp b op).has_errors = true := by
      cases op <;>
        simp [applyBagOp, ReportsBag.add, ReportsBag.print, ReportsBag.mark_errors,
          ReportsBag.clear_errors, h]
    have hfold : applyBagOps b (op :: rest) = applyBagOps (applyBagOp b op) rest := rfl
    rw [hfold]
    exact ih _ hstep

/-- Witness for claim C10: a bag whose flag was set by `mark_errors`
still reports errors after `clear_errors`, an `add` and a `print`. -/
theorem clear_errors_monotone_witness :
    (applyBagOps ((ReportsBag.init "f" "s").mark_errors)
      [BagOp.clear_errors, BagOp.add (errorReport "m" (sp 0 1)), BagOp.print]).has_errors =
      true :=
  clear_errors_frame_and_error_flag_monotone.2.1 _ _ rfl

/-- Claim C1: evaluating the tree indexer on a document with two
top-level blocks (`head`, `body`).  Ids and depths come out as the
claim states (0,1 in visit order, depth 0), but the second top-level
block is assigned parent `some 0` instead of `none`, and its id is
appended to the first root's children list: `exit_block` restores
`current_parent` to `Some(old_parent)` even at the root, where
`enter_block` returned the root's own id. -/
theorem indexer_second_root_parent_bug :
    (docHB.collect_info Info.new).map
        (fun i => (i.blocks.map BlockInfo.parent, i.blocks.map BlockInfo.children,
          i.blocks.map BlockInfo.id, i.blocks.map BlockInfo.depth)) =
      some ([none, some 0], [[1], []], [0, 1], [0, 0]) := by
  simp [MarstonDocument.collect_info, collectInfoBlocks, Block.collect_info,
    collectInfoNodes, Node.collect_info, Info.enter_block, Info.exit_block, docHB,
    Info.new, indexPush, pushChildAt, Block.name, Block.span, Block.children]

/-- Claim C2: the token stream of a lone `.` makes `Parser::parse`
reach the unchecked index `self.tokens[1]` inside
`consume_identifier`'s call to `current`, i.e. an out-of-bounds panic
instead of a normally returned `Document`. -/
theorem parser_lone_dot_out_of_bounds :
    runParse 10 toksLoneDot bag0 = .error (.indexOutOfBounds 1) := rfl

/-- Claim C5: under the built-in `"as"` link rule, the document
`.head{.link(.rel="preload")}` (no `as`) receives exactly one error
diagnostic `Missing required attribute 'as'` (driven by the rule's
`required_if` condition); the same document with `rel = "stylesheet"`
receives none at all. -/
theorem link_as_conditional_requirement :
    asValidator.validate docPreload =
      some [vReport .error "Missing required attribute 'as'"
        [⟨sp 7 11, "'as' attribute is required in 'link'", .brightRed⟩]
        ["Add the required 'as' attribute"]] ∧
    asValidator.validate docStylesheet = some [] := ⟨rfl, rfl⟩

/-- Claim C7: two top-level `head` blocks yield exactly one duplicate
diagnostic whose labels cross-reference the repeat (redefined) and the
first occurrence — but the rule is not restricted to the unique-tag
set: two blocks named `link`, for which `is_unique_tag` is `false`,
are reported all the same. -/
theorem uniqueness_rule_reports_all_names :
    (docHeadHead.collect_info Info.new).map validate_block_name_uniqueness =
      some [{ kind := .error,
              message := "Duplicate block name 'head' found",
              span := sp 11 20,
              labels := [⟨sp 11 20, "Block 'head' redefined here", .brightRed⟩,
                         ⟨sp 0 10, "Block 'head' first defined here", .yellow⟩],
              notes := ["'head' is a block that should occur only once per document"] }] ∧
    (docLinkLink.collect_info Info.new).map
        (fun i => (validate_block_name_uniqueness i).length) = some 1 ∧
    is_unique_tag "link" = false := by
  refine ⟨?_, ?_, rfl⟩ <;>
    simp [MarstonDocument.collect_info, collectInfoBlocks, Block.collect_info,
      collectInfoNodes, Node.collect_info, Info.enter_block, Info.exit_block, docHeadHead,
      docLinkLink, Info.new, indexPush, pushChildAt, Block.name, Block.span, Block.children,
      validate_block_name_uniqueness, collectDuplicates, sp]

/-- Counterexample for claim C8: parsing `.b(.x){}` — the attribute
form `. IDENT` without `=` — does not produce an attribute bound to
`Boolean(true)`: the resulting block has no attributes at all and an
error diagnostic was recorded. -/
theorem bare_attribute_rejected_counterexample :
    (runParse 12 toksC8 bag0).toOption.map
        (fun r => (r.2.map PBlock.attributes, r.1.bag.has_errors)) =
      some ([[]], true) := rfl

/-- Counterexample for claim C9: parsing `.b(.x=1,.x=2){}` yields a
block retaining a single `x` entry (the later value) — duplicates are
not representable in the parsed attribute map, and no diagnostic is
recorded for the silent overwrite. -/
theorem duplicate_attribute_overwritten_counterexample :
    (runParse 20 toksC9 bag0).toOption.map
        (fun r => (r.2.map PBlock.attributes, r.1.bag.reports.length)) =
      some ([[("x", PValue.number 2)]], 0) := rfl

/-- Claim C9 (amended): a parsed block's attribute collection is the
hash map built by `attrs.insert`; writing the same key twice keeps
exactly the later value, silently (`insert` after `insert` of the same
key is `insert` of the later value). -/
theorem parser_attribute_map_last_write_wins :
    ((runParse 20 toksC9 bag0).toOption.map
        (fun r => (r.2.map PBlock.attributes, r.1.bag.has_errors)) =
      some ([[("x", PValue.number 2)]], false)) ∧
    (∀ (m : List (String × PValue)) (k : String) (v₁ v₂ : PValue),
      hmInsert (hmInsert m k v₁) k v₂ = hmInsert m k v₂) := by
  refine ⟨rfl, ?_⟩
  intro m k v₁ v₂
  induction m with
  | nil => simp [hmInsert]
  | cons e rest ih =>
    obtain ⟨kh, vh⟩ := e
    by_cases h : kh == k
    · simp [hmInsert, h]
    · simp [hmInsert, h, ih]

/-- Helper: a passing type check emits no report. -/
theorem runTypeCheck_pass_no_report (tc : TypeCheck) (v : Value) (spn : Span)
    (h : (runTypeCheck tc v spn).2 = true) : (runTypeCheck tc v spn).1 = [] := by
  cases tc with
  | must_be_string => revert h; rcases hv : v.kind.as_string with _ | s <;> simp [runTypeCheck, hv]
  | must_be_number => revert h; rcases hv : v.kind.as_number with _ | n <;> simp [runTypeCheck, hv]
  | must_be_boolean =>
    revert h; rcases hv : v.kind.as_boolean with _ | b <;> simp [runTypeCheck, hv]
  | must_be_array inner =>
    revert h
    rcases hv : v.kind.as_array with _ | arr
    · simp [runTypeCheck, hv]
    · rcases inner with _ | inn
      · simp [runTypeCheck, hv]
      · by_cases hall : arr.all (fun item => item.kind.is_same_kind inn) <;>
          simp [runTypeCheck, hv, hall]

/-- Helper: when every type check passes, the loop emits nothing and
reports success. -/
theorem runTypeChecks_all_pass (tcs : List TypeCheck) (v : Value) (spn : Span)
    (h : ∀ t ∈ tcs, (runTypeCheck t v spn).2 = true) :
    runTypeChecks tcs v spn = ([], true) := by
  induction tcs with
  | nil => rfl
  | cons tc rest ih =>
    rcases hpair : runTypeCheck tc v spn with ⟨r, ok⟩
    have h1 : ok = true := by have := h tc (by simp); rwa [hpair] at this
    have h2 : r = [] := by
      have := runTypeCheck_pass_no_report tc v spn (by rw [hpair]; exact h1)
      rwa [hpair] at this
    subst h1; subst h2
    have ihr := ih (fun t ht => h t (by simp [ht]))
    simp [runTypeChecks, hpair, ihr]

/-- Helper: the loop stops at the first failing type check, returning
exactly that check's reports. -/
theorem runTypeChecks_first_fail (passed : List TypeCheck) (tc : TypeCheck)
    (rest : List TypeCheck) (v : Value) (spn : Span)
    (hpass : ∀ t ∈ passed, (runTypeCheck t v spn).2 = true)
    (hfail : (runTypeCheck tc v spn).2 = false) :
    runTypeChecks (passed ++ tc :: rest) v spn = ((runTypeCheck tc v spn).1, false) := by
  induction passed with
  | nil =>
    simp only [List.nil_append]
    rcases hpair : runTypeCheck tc v spn with ⟨r, ok⟩
    have hko : ok = false := by rwa [hpair] at hfail
    subst hko
    simp [runTypeChecks, hpair]
  | cons p ps ih =>
    have h1 : (runTypeCheck p v spn).2 = true := hpass p (by simp)
    have h2 := runTypeCheck_pass_no_report p v spn h1
    rcases hpair : runTypeCheck p v spn with ⟨r, ok⟩
    rw [hpair] at h1 h2
    subst h1; subst h2
    have ihr := ih (fun t ht => hpass t (by simp [ht]))
    simp [List.cons_append, runTypeChecks, hpair, ihr]

/-- Claim C6: for every attribute value validated by a
`GenericValidator`, the configured type checks run in order and stop
at the first failure — the output is exactly that check's diagnostic,
no later type check and no value check contributes; and if every type
check passes, the output is exactly the concatenation of every value
check's diagnostics, each run unconditionally. -/
theorem type_checks_short_circuit_value_checks_all_run :
    ∀ (gv : GenericValidator) (v : Value) (spn : Span),
      (∀ passed tc rest, gv.type_checks = passed ++ tc :: rest →
        (∀ t ∈ passed, (runTypeCheck t v spn).2 = true) →
        (runTypeCheck tc v spn).2 = false →
        gv.validate_attribute_value v spn = (runTypeCheck tc v spn).1) ∧
      ((∀ t ∈ gv.type_checks, (runTypeCheck t v spn).2 = true) →
        gv.validate_attribute_value v spn =
          gv.value_checks.flatMap (fun c => runValueCheck c v spn)) := by
  intro gv v spn
  constructor
  · intro passed tc rest heq hpass hfail
    unfold GenericValidator.validate_attribute_value
    rw [heq, runTypeChecks_first_fail passed tc rest v spn hpass hfail]
    simp
  · intro hall
    unfold GenericValidator.validate_attribute_value
    rw [runTypeChecks_all_pass _ v spn hall]
    simp

/-- Witness for claim C6: a rule with `must_be_number` and
`string_not_empty` on a blank string value yields exactly the "must be
a number" diagnostic; the value check, which would fire on this value
had it run, is suppressed. -/
theorem type_checks_short_circuit_witness :
    numberRule.validate_attribute_value blankStringValue (sp 3 6) =
      [vReport .error "Value must be a number"
        [⟨sp 3 6, "Expected a numeric value here", .brightRed⟩]
        ["Use a numeric value, e.g., 42 or 3.14"]] ∧
    runValueCheck .string_not_empty blankStringValue (sp 3 6) =
      [vReport .error "String cannot be empty"
        [⟨sp 3 6, "This value must not be empty", .brightRed⟩]
        ["Provide a meaningful non-empty value"]] := by
  constructor
  · have h := (type_checks_short_circuit_value_checks_all_run numberRule blankStringValue
      (sp 3 6)).1 [] .must_be_number [] rfl (by simp) rfl
    rw [h]
    rfl
  · rfl

/-- Helper: the child filter of the refinement step selects exactly
the block children carrying the given name. -/
theorem childFilter_eq_some (child : Node) (n : String) (c : Block) :
    (match child with
     | Node.block child_block =>
       match child_block.name with
       | some interned => if interned.key == n then some child_block else none
       | none => none
     | Node.text _ => none) = some c ↔
      (child = Node.block c ∧ ∃ i, c.name = some i ∧ i.key = n) := by
  cases child with
  | text s => simp
  | block cb =>
    cases hn : cb.name with
    | none =>
      simp only [hn]
      constructor
      · intro h; cases h
      · rintro ⟨heq, i, hi, hk⟩
        injection heq with heq'
        subst heq'
        rw [hn] at hi
        cases hi
    | some i0 =>
      simp only [hn]
      by_cases hk : i0.key = n
      · simp only [hk, beq_self_eq_true, if_true]
        constructor
        · intro h
          injection h with h'
          subst h'
          exact ⟨rfl, i0, hn, hk⟩
        · rintro ⟨heq, _⟩
          injection heq with heq'
          subst heq'
          rfl
      · rw [if_neg (by simpa using hk)]
        constructor
        · intro h; cases h
        · rintro ⟨heq, i, hi, hkey⟩
          injection heq with heq'
          subst heq'
          rw [hn] at hi
          injection hi with hi'
          subst hi'
          exact absurd hkey hk

/-- Helper: membership in one refinement step. -/
theorem mem_findInParentStep (cur : List Block) (n : String) (c : Block) :
    c ∈ findInParentStep cur n ↔
      ∃ r ∈ cur, Node.block c ∈ r.children ∧ ∃ i, c.name = some i ∧ i.key = n := by
  simp only [findInParentStep, List.mem_flatMap, List.mem_filterMap]
  constructor
  · rintro ⟨r, hr, child, hchild, hsome⟩
    rw [childFilter_eq_some] at hsome
    obtain ⟨rfl, hi⟩ := hsome
    exact ⟨r, hr, hchild, hi⟩
  · rintro ⟨r, hr, hmem, hi⟩
    exact ⟨r, hr, Node.block c, hmem, (childFilter_eq_some (Node.block c) n c).mpr ⟨rfl, hi⟩⟩

/-- Helper: folding the refinement steps reaches exactly the blocks
connected to a candidate by a direct-parentage chain. -/
theorem mem_foldl_findInParentStep (ns : List String) (cur : List Block) (b : Block) :
    b ∈ ns.foldl findInParentStep cur ↔ ∃ r ∈ cur, SpecDirectChain r ns b := by
  induction ns generalizing cur with
  | nil =>
    simp only [List.foldl_nil]
    constructor
    · intro hb; exact ⟨b, hb, SpecDirectChain.nil b⟩
    · rintro ⟨r, hr, hchain⟩; cases hchain; exact hr
  | cons n ns ih =>
    rw [List.foldl_cons, ih]
    constructor
    · rintro ⟨c, hc, hchain⟩
      rw [mem_findInParentStep] at hc
      obtain ⟨r, hr, hmem, hi⟩ := hc
      exact ⟨r, hr, SpecDirectChain.cons hmem hi hchain⟩
    · rintro ⟨r, hr, hchain⟩
      cases hchain with
      | cons hmem hname htail =>
        exact ⟨_, (mem_findInParentStep cur n _).mpr ⟨r, hr, hmem, hname⟩, htail⟩

/-- Helper: the root filter of `find_in_parent` selects exactly the
top-level blocks carrying the first name. -/
theorem mem_rootFilter (d : MarstonDocument) (first : String) (r : Block) :
    r ∈ d.blocks.filter (fun block =>
        match block.name with
        | some interned => interned.key == first
        | none => false) ↔
      r ∈ d.blocks ∧ ∃ i, r.name = some i ∧ i.key = first := by
  rw [List.mem_filter]
  refine and_congr_right (fun _ => ?_)
  cases hn : r.name with
  | none => simp [hn]
  | some i0 =>
    simp only [hn, beq_iff_eq]
    constructor
    · intro h; exact ⟨i0, rfl, h⟩
    · rintro ⟨i, hi, hk⟩
      injection hi with hi'
      subst hi'
      exact hk

/-- Claim C4: `find_in_parent` resolves an ancestor path with
root-anchored, direct-child semantics — a block is returned for path
`first :: rest` exactly when it is reached from a top-level block named
`first` by an unbroken chain of named direct children along `rest`.
Concretely, for path `[A, B]` the nested `A > X > B` document returns
nothing while the direct `A > B` document returns the `B` block. -/
theorem find_in_parent_direct_child_semantics :
    (∀ (d : MarstonDocument) (first : String) (rest : List String) (b : Block),
      b ∈ d.find_in_parent (first :: rest) ↔
        ∃ r ∈ d.blocks, (∃ i, r.name = some i ∧ i.key = first) ∧
          SpecDirectChain r rest b) ∧
    docAXB.find_in_parent ["A", "B"] = [] ∧
    docAB.find_in_parent ["A", "B"] = [blockDirectB] := by
  refine ⟨?_, rfl, rfl⟩
  intro d first rest b
  simp only [MarstonDocument.find_in_parent]
  rw [mem_foldl_findInParentStep]
  constructor
  · rintro ⟨r, hr, hchain⟩
    rw [mem_rootFilter] at hr
    exact ⟨r, hr.1, hr.2, hchain⟩
  · rintro ⟨r, hr, hname, hchain⟩
    exact ⟨r, (mem_rootFilter d first r).mpr ⟨hr, hname⟩, hchain⟩

/-- Helper: bind on a successful `Except` computation. -/
theorem except_ok_bind {ε α β : Type} (a : α) (f : α → Except ε β) :
    (Except.ok a : Except ε α) >>= f = f a := rfl

/-- Helper: map over a successful `Except` computation. -/
theorem except_ok_map {ε α β : Type} (a : α) (f : α → β) :
    f <$> (Except.ok a : Except ε α) = Except.ok (f a) := rfl

/-- Helper: bind propagates errors. -/
theorem except_error_bind {ε α β : Type} (e : ε) (f : α → Except ε β) :
    (Except.error e : Except ε α) >>= f = Except.error e := rfl

/-- Helper: pure of the `Except` monad. -/
theorem except_pure_eq {ε α : Type} (a : α) : (pure a : Except ε α) = Except.ok a := rfl

/-- Claim C8 (amended): `parse_attr` demands `'='` after `'.' IDENT` —
whenever the token after the attribute name exists and is not `'='`,
the attribute comes back `none` (no `Boolean(true)` default), exactly
one error diagnostic is recorded at that token, the error flag is set,
and the cursor rests on the offending token. -/
theorem parse_attr_requires_equals :
    ∀ (fuel : Nat) (s : PState) (sp1 sp2 : Span) (nm : String) (t3 : Token),
      s.tokens[s.current]? = some ⟨.dot, sp1⟩ →
      s.tokens[s.current + 1]? = some ⟨.identifier nm, sp2⟩ →
      s.tokens[s.current + 2]? = some t3 →
      t3.kind ≠ .equals →
      parseAttr (fuel + 1) s =
        .ok (none,
          { s with current := s.current + 2,
                   bag := (s.bag.mark_errors).add (errorReport
                     ("Expected '" ++ TokenKind.equals.display ++ "', found '" ++
                        t3.kind.display ++ "'" ++ ". " ++
                        "attribute name must be separated by an equals sign") t3.span) }) := by
  intro fuel s sp1 sp2 nm t3 h1 h2 h3 hne
  have hlt1 : s.current < s.tokens.length := (List.getElem?_eq_some_iff.mp h1).1
  have hlt2 : s.current + 1 < s.tokens.length := (List.getElem?_eq_some_iff.mp h2).1
  have hbne : (t3.kind == TokenKind.equals) = false := beq_eq_false_iff_ne.mpr hne
  simp [parseAttr, PState.consume, PState.consume_identifier, PState.check,
    PState.currentTok, PState.advance, PState.is_at_end, h1, h2, h3, hbne, hne,
    Nat.not_le.mpr hlt1, Nat.not_le.mpr hlt2, hlt1, hlt2, PState.emitError,
    except_ok_bind, except_ok_map, except_pure_eq, TokenKind.display]

/-- Witness for claim C8 (amended): the `.x` attribute of `.b(.x){}`
at cursor 3 is rejected with the equals-sign diagnostic. -/
theorem parse_attr_requires_equals_witness :
    parseAttr 5 ⟨toksC8, 3, bag0⟩ =
      .ok (none,
        { tokens := toksC8, current := 5,
          bag := (bag0.mark_errors).add (errorReport
            "Expected '=', found ')'. attribute name must be separated by an equals sign"
            (sp 5 6)) }) :=
  (parse_attr_requires_equals 4 ⟨toksC8, 3, bag0⟩ (sp 3 4) (sp 4 5) "x"
    ⟨.parenClose, sp 5 6⟩ rfl rfl rfl (by decide)).trans rfl

/-- Helper: when the top-level loop finishes with an error-free bag,
the whole token stream was consumed. -/
theorem parseLoop_clean_consumes_all :
    ∀ (fuel : Nat) (s : PState) (doc : List PBlock) (sF : PState) (docF : List PBlock),
      parseLoop fuel s doc = .ok (sF, docF) → sF.bag.has_errors = false →
      sF.is_at_end = true := by
  intro fuel
  induction fuel with
  | zero => intro s doc sF docF h _; simp [parseLoop] at h
  | succ fuel ih =>
    intro s doc sF docF h hne
    by_cases hend : s.is_at_end
    · simp [parseLoop, hend] at h
      obtain ⟨rfl, rfl⟩ := h
      exact hend
    · simp only [parseLoop, hend, Bool.false_eq_true, if_false] at h
      cases hpb : parseBlock fuel s with
      | error e => rw [hpb] at h; simp [except_error_bind] at h
      | ok bs =>
        obtain ⟨b, s₁⟩ := bs
        rw [hpb] at h
        simp only [except_ok_bind] at h
        by_cases herr : s₁.bag.has_errors
        · simp [herr] at h
          obtain ⟨rfl, rfl⟩ := h
          rw [herr] at hne
          cases hne
        · simp only [herr, Bool.false_eq_true, if_false] at h
          exact ih s₁ (doc ++ [b]) sF docF h hne

/-- Helper: if the k-th iterate of the loop body is the first whose
state holds an error, the loop adds at most `k` blocks. -/
theorem parseLoop_fail_fast_bound :
    ∀ (fuel k : Nat) (s : PState) (doc : List PBlock) (sF : PState) (docF : List PBlock),
      s.bag.has_errors = false →
      parseLoop fuel s doc = .ok (sF, docF) →
      (∀ sk, iterParseBlocks fuel k s = .ok sk → sk.bag.has_errors = true) →
      (∀ j sj, j < k → iterParseBlocks fuel j s = .ok sj → sj.bag.has_errors = false) →
      docF.length ≤ doc.length + k := by
  intro fuel
  induction fuel with
  | zero => intro k s doc sF docF _ h _ _; simp [parseLoop] at h
  | succ fuel ih =>
    intro k s doc sF docF herr0 h hk hj
    by_cases hend : s.is_at_end
    · simp [parseLoop, hend] at h
      obtain ⟨rfl, rfl⟩ := h
      omega
    · simp only [parseLoop, hend, Bool.false_eq_true, if_false] at h
      cases hpb : parseBlock fuel s with
      | error e => rw [hpb] at h; simp [except_error_bind] at h
      | ok bs =>
        obtain ⟨b, s₁⟩ := bs
        rw [hpb] at h
        simp only [except_ok_bind] at h
        cases k with
        | zero =>
          have hs : s.bag.has_errors = true := hk s rfl
          rw [hs] at herr0
          cases herr0
        | succ k =>
          have hiter : ∀ j, iterParseBlocks (fuel + 1) (j + 1) s = iterParseBlocks fuel j s₁ := by
            intro j
            simp [iterParseBlocks, hpb, except_ok_bind]
          by_cases herr : s₁.bag.has_errors
          · simp [herr] at h
            obtain ⟨rfl, rfl⟩ := h
            simp only [List.length_append, List.length_cons, List.length_nil]
            omega
          · simp only [herr, Bool.false_eq_true, if_false] at h
            have hbound := ih k s₁ (doc ++ [b]) sF docF (by simpa using herr) h
              (fun sk hsk => hk sk ((hiter k).trans hsk))
              (fun j sj hjk hsj => hj (j + 1) sj (by omega) ((hiter j).trans hsj))
            simp at hbound
            omega

/-- Claim C3: starting from an error-free bag, if the k-th iterate of
the top-level loop body (`parse_block` on the running state, same fuel
schedule) is the first one whose bag holds an error, a completed
`parse` returns a document with at most `k` top-level blocks; and when
the final bag is error-free, the whole token stream was consumed, i.e.
every top-level block was parsed. -/
theorem parse_fail_fast_at_root :
    ∀ (fuel k : Nat) (tokens : List Token) (bag : ReportsBag) (sF : PState)
      (docF : List PBlock),
      bag.has_errors = false →
      runParse fuel tokens bag = .ok (sF, docF) →
      ((∀ sk, iterParseBlocks fuel k ⟨tokens, 0, bag⟩ = .ok sk → sk.bag.has_errors = true) →
        (∀ j sj, j < k → iterParseBlocks fuel j ⟨tokens, 0, bag⟩ = .ok sj →
          sj.bag.has_errors = false) →
        docF.length ≤ k) ∧
      (sF.bag.has_errors = false → sF.is_at_end = true) := by
  intro fuel k tokens bag sF docF hbag h
  constructor
  · intro hk hj
    have hb := parseLoop_fail_fast_bound fuel k ⟨tokens, 0, bag⟩ [] sF docF hbag h hk hj
    simpa using hb
  · intro hne
    exact parseLoop_clean_consumes_all fuel ⟨tokens, 0, bag⟩ [] sF docF h hne

/-- Witness for claim C3: parsing `.a{1}.b{}` — the first block records
an error (invalid child) — returns a document with at most one block
(the second block is never parsed). -/
theorem parse_fail_fast_witness :
    ∃ (sF : PState) (docF : List PBlock),
      runParse 12 toksC3 bag0 = .ok (sF, docF) ∧ docF.length ≤ 1 := by
  refine ⟨_, _, rfl, ?_⟩
  refine (parse_fail_fast_at_root 12 1 toksC3 bag0 _ _ rfl rfl).1 ?_ ?_
  · intro sk hsk
    have hmap : (iterParseBlocks 12 1 ⟨toksC3, 0, bag0⟩).map
        (fun st => st.bag.has_errors) = .ok true := rfl
    rw [hsk] at hmap
    simpa [Except.map] using hmap
  · intro j sj hj1 hsj
    have hj0 : j = 0 := by omega
    subst hj0
    have hiter : iterParseBlocks 12 0 ⟨toksC3, 0, bag0⟩ = .ok ⟨toksC3, 0, bag0⟩ := rfl
    rw [hiter] at hsj
    cases hsj
    rfl

end Marston
